import Mathlib

/-!
Verification of the `features-go` client-side feature-flag cache against its
specification.  The Go code is shallowly embedded: time is measured in epoch
milliseconds (`Nat`), the HTTP layer is abstracted as an explicit outcome
parameter, and each stateful Go method becomes a pure Lean function on an
explicit client state.
-/

namespace Features

/-- A per-tenant override, mirroring `flagTenant` in `api.go`. -/
structure flagTenant where
  code : String
  enabled : Bool
deriving DecidableEq, Repr

/-- A flag definition, mirroring `flagReply` in `api.go`. -/
structure flagReply where
  code : String
  enabled : Bool
  tenants : List flagTenant
deriving DecidableEq, Repr

/-- The inner loop of `IsEnabled` in `client.go`: scan the tenant overrides
for an exact code match and return that override's enabled value; once the
loop ends without a match the method returns `false`. -/
def evalTenants (tenants : List flagTenant) (tenant : String) : Bool :=
  match tenants with
  | [] => false
  | t :: rest => if t.code = tenant then t.enabled else evalTenants rest tenant

/-- The evaluation loop of `IsEnabled` in `client.go` (lines 240-271), acting
on the flag snapshot read under the lock: skip entries whose code differs;
on the first match return the global value when there are no tenant
overrides, `false` when the flag is globally disabled, and otherwise the
result of the tenant-override scan. -/
def evalFlags (flags : List flagReply) (flag tenant : String) : Bool :=
  match flags with
  | [] => false
  | f :: rest =>
    if f.code ≠ flag then evalFlags rest flag tenant
    else if f.tenants = [] then f.enabled
    else if f.enabled = false then false
    else evalTenants f.tenants tenant

/-- Evaluation of a single matched flag definition, used to characterise
`evalFlags` through `List.find?`. -/
def evalOne (f : flagReply) (tenant : String) : Bool :=
  if f.tenants = [] then f.enabled
  else if f.enabled = false then false
  else evalTenants f.tenants tenant

/-! ## Client state and the fetch engine -/

/-- Outcome of one outbound GET against the evaluation endpoint, abstracting
the HTTP transport: a network error, or a response with a status code and a
body that either decodes to a flag list or fails to decode (`none`). -/
inductive FetchOutcome where
  | netError
  | httpResponse (status : Nat) (body : Option (List flagReply))
deriving DecidableEq, Repr

/-- State of `featuresClient` in `client.go` relevant to fetching and
evaluation.  `time.Time` zero values become `none`; durations are
milliseconds. -/
structure featuresClient where
  localMode : Bool
  flags : List flagReply
  stale : Option Nat
  lastRefresh : Option Nat
  staleDuration : Nat
  staleDurationError : Nat
  maxFetchInterval : Nat
deriving DecidableEq, Repr

/-- The constant part of `newClient` in `client.go`: empty snapshot, zero
timestamps, 1 minute freshness window, 5 minute error backoff, 10 second
minimum fetch interval. -/
def newClientState (isLocal : Bool) : featuresClient :=
  { localMode := isLocal
    flags := []
    stale := none
    lastRefresh := none
    staleDuration := 60000
    staleDurationError := 300000
    maxFetchInterval := 10000 }

/-- `isStale` in `client.go`: the snapshot is stale when the deadline was
never set or has passed (`time.Since(c.stale) >= 0`). -/
def isStale (c : featuresClient) (now : Nat) : Bool :=
  match c.stale with
  | none => true
  | some s => decide (s ≤ now)

/-- The rate-floor guard at the top of `safeFetch` in `client.go`: skip when
the last successful refresh is set and completed less than
`maxFetchInterval` ago. -/
def skipFetch (c : featuresClient) (now : Nat) : Bool :=
  match c.lastRefresh with
  | none => false
  | some lr => decide (now - lr < c.maxFetchInterval)

/-- `safeFetch` in `client.go` as a pure transition.  Returns the new state,
the number of outbound requests issued (0 or 1) and whether an error was
returned.  On the rate-floor skip nothing happens and `nil` is returned; on
a network error, a non-200 status or a decode error the state is untouched
and an error is returned; on success the snapshot is replaced wholesale,
`stale` becomes `now + staleDuration` and `lastRefresh` becomes `now`. -/
def safeFetch (c : featuresClient) (now : Nat) (out : FetchOutcome) :
    featuresClient × Nat × Bool :=
  if skipFetch c now then (c, 0, false)
  else
    match out with
    | .netError => (c, 1, true)
    | .httpResponse status body =>
      if status ≠ 200 then (c, 1, true)
      else
        match body with
        | none => (c, 1, true)
        | some fetched =>
          ({ c with
              flags := fetched
              stale := some (now + c.staleDuration)
              lastRefresh := some now }, 1, false)

/-- `fetch` in `client.go`: run `safeFetch` and, when it errors, push the
staleness deadline to `now + staleDurationError`; the error itself is
swallowed (the singleflight result is discarded). -/
def fetch (c : featuresClient) (now : Nat) (out : FetchOutcome) :
    featuresClient × Nat :=
  match safeFetch c now out with
  | (c', n, errored) =>
    if errored then ({ c' with stale := some (now + c.staleDurationError) }, n)
    else (c', n)

/-- `IsEnabled` in `client.go`: in local mode answer `true`; otherwise
trigger a fetch when the snapshot is stale, then evaluate against the
(possibly refreshed) snapshot.  Returns the new state, the number of
outbound requests issued and the boolean answer. -/
def IsEnabled (c : featuresClient) (now : Nat) (out : FetchOutcome)
    (flag tenant : String) : featuresClient × Nat × Bool :=
  if c.localMode then (c, 0, true)
  else
    match (if isStale c now then fetch c now out else (c, 0)) with
    | (c', n) => (c', n, evalFlags c'.flags flag tenant)

/-! ## Refresh scheduler interval adjustment -/

/-- The interval table inside `adjustInterval` in `client.go`, as a function
of the time since the last access (milliseconds): 15 seconds under 5
minutes, 1 minute from 5 to 30 minutes, 5 minutes afterwards. -/
def adjustIntervalValue (sinceAccess : Nat) : Nat :=
  if sinceAccess < 300000 then 15000
  else if sinceAccess < 1800000 then 60000
  else 300000

/-- Scheduler state touched by `adjustInterval`. -/
structure schedState where
  lastAccess : Nat
  refreshInterval : Nat
deriving DecidableEq, Repr

/-- `adjustInterval` in `client.go`: recompute the interval from the time
since the last access and report whether `ticker.Reset` was invoked, which
happens exactly when the recomputed value differs from the previous one. -/
def adjustInterval (c : schedState) (now : Nat) : schedState × Bool :=
  let newInterval := adjustIntervalValue (now - c.lastAccess)
  ({ c with refreshInterval := newInterval },
    decide (newInterval ≠ c.refreshInterval))

/-! ## Stats aggregator -/

/-- An access event, mirroring `accessEvent` in `stats.go`. -/
structure accessEvent where
  flag : String
  enabled : Bool
deriving DecidableEq, Repr

/-- Counters of one minute bucket, mirroring `bucketStats` in `stats.go`. -/
structure bucketStats where
  enabledHits : Nat
  totalHits : Nat
deriving DecidableEq, Repr

/-- Per-flag bucket map, mirroring `flagStats` in `stats.go`; the Go
`map[int64]*bucketStats` is modelled as an association list keyed by the
minute-truncated epoch-millisecond timestamp. -/
structure flagStats where
  buckets : List (Nat × bucketStats)
deriving DecidableEq, Repr

/-- The Go `map[string]*flagStats` held in `featuresClient.stats`. -/
abbrev StatsMap := List (String × flagStats)

/-- `time.Now().Truncate(time.Minute).UnixMilli()` for an epoch-millisecond
instant. -/
def minuteKey (now : Nat) : Nat := now / 60000 * 60000

/-- Update one bucket map for an event: create the bucket on first use, then
increment `totalHits`, and `enabledHits` when the evaluation was `true`. -/
def updateBuckets (bm : List (Nat × bucketStats)) (key : Nat) (enabled : Bool) :
    List (Nat × bucketStats) :=
  match bm with
  | [] => [(key, { enabledHits := if enabled then 1 else 0, totalHits := 1 })]
  | (k, b) :: rest =>
    if k = key then
      (k, { enabledHits := b.enabledHits + (if enabled then 1 else 0)
            totalHits := b.totalHits + 1 }) :: rest
    else (k, b) :: updateBuckets rest key enabled

/-- The `event := <-c.statsCh` branch of `backgroundStats` in `stats.go`:
create the flag entry on first use, then update the bucket of the current
minute. -/
def consumeEvent (stats : StatsMap) (now : Nat) (e : accessEvent) : StatsMap :=
  match stats with
  | [] => [(e.flag, { buckets := updateBuckets [] (minuteKey now) e.enabled })]
  | (f, fs) :: rest =>
    if f = e.flag then
      (f, { buckets := updateBuckets fs.buckets (minuteKey now) e.enabled }) :: rest
    else (f, fs) :: consumeEvent rest now e

/-- Lookup of a flag's stats entry (first occurrence, as in a Go map whose
keys are unique). -/
def lookupFlag (stats : StatsMap) (flag : String) : Option flagStats :=
  match stats with
  | [] => none
  | (f, fs) :: rest => if f = flag then some fs else lookupFlag rest flag

/-- Lookup of a minute bucket inside one bucket map. -/
def lookupBucket (bm : List (Nat × bucketStats)) (key : Nat) : Option bucketStats :=
  match bm with
  | [] => none
  | (k, b) :: rest => if k = key then some b else lookupBucket rest key

/-- Combined lookup of the `(flag, minute)` bucket. -/
def lookupStatsBucket (stats : StatsMap) (flag : String) (key : Nat) :
    Option bucketStats :=
  match lookupFlag stats flag with
  | none => none
  | some fs => lookupBucket fs.buckets key

/-- The counters of a `(flag, minute)` bucket, zero when absent. -/
def getBucket (stats : StatsMap) (flag : String) (key : Nat) : bucketStats :=
  (lookupStatsBucket stats flag key).getD { enabledHits := 0, totalHits := 0 }

/-- The serialization loop of `sendStats` in `stats.go`: one `statEntry` per
accumulated `(flag, minute)` bucket. -/
structure statEntry where
  bucket : Nat
  flag : String
  enabledHits : Nat
  totalHits : Nat
deriving DecidableEq, Repr

/-- Flatten the stats mapping into the upload payload list. -/
def statsEntries (stats : StatsMap) : List statEntry :=
  stats.flatMap fun p =>
    p.2.buckets.map fun b =>
      { bucket := b.1, flag := p.1, enabledHits := b.2.enabledHits,
        totalHits := b.2.totalHits }

/-- Outcome of one stats upload POST. -/
inductive UploadOutcome where
  | netError
  | status (code : Nat)
deriving DecidableEq, Repr

/-- The acceptance check of `sendStats`: HTTP 200 or 204. -/
def uploadAccepted : UploadOutcome → Bool
  | .netError => false
  | .status c => c == 200 || c == 204

/-- `sendStats` in `stats.go` as a transition on the stats mapping: no-op in
local mode or with nothing accumulated; on an accepted upload the whole
mapping is cleared; otherwise it is left untouched and an error is
returned. -/
def sendStats (localMode : Bool) (stats : StatsMap) (out : UploadOutcome) :
    StatsMap × Bool :=
  if localMode then (stats, false)
  else if stats = [] then (stats, false)
  else if uploadAccepted out then ([], false)
  else (stats, true)

/-- The inner cleanup loop in the ticker branch of `backgroundStats`:
`delete(flagStats.buckets, bucket)` for every bucket strictly older than the
cutoff. -/
def cleanBuckets (bm : List (Nat × bucketStats)) (cutoff : Nat) :
    List (Nat × bucketStats) :=
  match bm with
  | [] => []
  | (k, b) :: rest =>
    if k < cutoff then cleanBuckets rest cutoff
    else (k, b) :: cleanBuckets rest cutoff

/-- The outer cleanup loop in the ticker branch of `backgroundStats`: clean
each flag's buckets, then `delete(c.stats, flag)` when no bucket is left. -/
def pruneOld (stats : StatsMap) (cutoff : Nat) : StatsMap :=
  match stats with
  | [] => []
  | (f, fs) :: rest =>
    if cleanBuckets fs.buckets cutoff = [] then pruneOld rest cutoff
    else (f, { buckets := cleanBuckets fs.buckets cutoff }) :: pruneOld rest cutoff

/-- The `<-t.C` branch of `backgroundStats` in `stats.go`: attempt an
upload; on failure prune buckets older than 20 hours (72000000 ms). -/
def statsTick (localMode : Bool) (stats : StatsMap) (now : Nat)
    (out : UploadOutcome) : StatsMap :=
  match sendStats localMode stats out with
  | (s, errored) => if errored then pruneOld s (now - 72000000) else s

/-! ## Auxiliary definitions for the claims -/

/-- The outcomes on which `safeFetch` returns an error: a transport error, a
non-200 status, or a body that fails to decode. -/
def fetchFailed : FetchOutcome → Bool
  | .netError => true
  | .httpResponse status body => status != 200 || body.isNone

/-- The flag snapshot used by the repository's own test suite
(`features_test.go`). -/
def testFlags : List flagReply :=
  [ { code := "global-enabled", enabled := true, tenants := [] },
    { code := "global-disabled", enabled := false, tenants := [] },
    { code := "tenant-enabled", enabled := true,
      tenants := [{ code := "foo-tenant", enabled := true }] },
    { code := "tenant-disabled", enabled := false,
      tenants := [{ code := "foo-tenant", enabled := false }] },
    { code := "global-disabled-tenant-enabled", enabled := false,
      tenants := [{ code := "foo-tenant", enabled := true }] } ]

/-- The access events of the spec's stats scenario: `tenant-enabled`
evaluated twice for `foo-tenant` and three times for `bar-tenant`, each
event carrying the boolean the evaluator resolved. -/
def scenarioEvents : List accessEvent :=
  [ { flag := "tenant-enabled",
      enabled := evalFlags testFlags "tenant-enabled" "foo-tenant" },
    { flag := "tenant-enabled",
      enabled := evalFlags testFlags "tenant-enabled" "foo-tenant" },
    { flag := "tenant-enabled",
      enabled := evalFlags testFlags "tenant-enabled" "bar-tenant" },
    { flag := "tenant-enabled",
      enabled := evalFlags testFlags "tenant-enabled" "bar-tenant" },
    { flag := "tenant-enabled",
      enabled := evalFlags testFlags "tenant-enabled" "bar-tenant" } ]

/-- The stats mapping accumulated by consuming the scenario's five events
within one minute (at instant 946684800000, the epoch millisecond the test
suite also uses). -/
def scenarioStats : StatsMap :=
  scenarioEvents.foldl (fun s e => consumeEvent s 946684800000 e) []

/-- A small concrete stats mapping exercised by the upload theorems: one
flag with one stale bucket (minute 0) and one recent bucket. -/
def sampleStats : StatsMap :=
  [("f", { buckets := [(0, { enabledHits := 0, totalHits := 1 }),
                       (946684800000, { enabledHits := 1, totalHits := 3 })] })]

/-! ## Public `Flag` entry point -/

/-- The panic message of `Flag` when the package was never configured. -/
def configureMessage : String :=
  "call features.Configure() before using features.Flag()"

/-- `Flag` in the package entry point: panic (modelled as `Except.error`)
when `DefaultClient` is nil, otherwise delegate to
`DefaultClient.IsEnabled(code, o.tenant)` (an absent `WithTenant` option
leaves the tenant empty). -/
def Flag (defaultClient : Option featuresClient) (now : Nat)
    (out : FetchOutcome) (code tenant : String) : Except String Bool :=
  match defaultClient with
  | none => .error configureMessage
  | some c => .ok (IsEnabled c now out code tenant).2.2

/-! ## Helper lemmas about the evaluator -/

theorem evalTenants_eq_find (ts : List flagTenant) (tenant : String) :
    evalTenants ts tenant =
      match ts.find? (fun t => t.code == tenant) with
      | some t => t.enabled
      | none => false := by
  induction ts with
  | nil => rfl
  | cons t rest ih =>
    by_cases h : t.code = tenant
    · simp [evalTenants, h, List.find?_cons_of_pos]
    · rw [evalTenants, if_neg h, List.find?_cons_of_neg, ih]
      simp [h]

theorem evalFlags_of_find_none (flags : List flagReply) (flag tenant : String)
    (h : flags.find? (fun f => f.code == flag) = none) :
    evalFlags flags flag tenant = false := by
  induction flags with
  | nil => rfl
  | cons f rest ih =>
    rw [List.find?_eq_none] at h
    have hf : ¬ f.code = flag := by
      simpa using h f (List.mem_cons_self f rest)
    rw [evalFlags, if_pos hf]
    exact ih (List.find?_eq_none.mpr fun x hx => h x (List.mem_cons_of_mem f hx))

theorem evalFlags_of_find_some (flags : List flagReply) (flag tenant : String)
    (f : flagReply) (h : flags.find? (fun g => g.code == flag) = some f) :
    evalFlags flags flag tenant = evalOne f tenant := by
  induction flags with
  | nil => simp at h
  | cons g rest ih =>
    by_cases hg : g.code = flag
    · rw [List.find?_cons_of_pos _ (by simpa using hg)] at h
      cases h
      rw [evalFlags, if_neg (by simpa using hg)]
      rfl
    · rw [List.find?_cons_of_neg _ (by simpa using hg)] at h
      rw [evalFlags, if_pos hg]
      exact ih h

/-! ## Claim theorems -/

/-- Claim C1: with the client configured and out of local mode, `IsEnabled`
evaluates the snapshot by the four-step algorithm: not-found is `false`; a
flag without tenant overrides answers its global value for any tenant; a
globally disabled flag answers `false` regardless of overrides; a globally
enabled flag with overrides answers the matching override's value, and
`false` when nothing matches (in particular when no tenant was supplied and
no override carries the empty code). -/
theorem isEnabled_evaluation_algorithm :
    (∀ (c : featuresClient) (now : Nat) (out : FetchOutcome) (flag tenant : String),
        c.localMode = false → isStale c now = false →
        IsEnabled c now out flag tenant = (c, 0, evalFlags c.flags flag tenant)) ∧
    (∀ (flags : List flagReply) (flag tenant : String),
        flags.find? (fun g => g.code == flag) = none →
        evalFlags flags flag tenant = false) ∧
    (∀ (flags : List flagReply) (flag tenant : String) (f : flagReply),
        flags.find? (fun g => g.code == flag) = some f → f.tenants = [] →
        evalFlags flags flag tenant = f.enabled) ∧
    (∀ (flags : List flagReply) (flag tenant : String) (f : flagReply),
        flags.find? (fun g => g.code == flag) = some f → f.enabled = false →
        evalFlags flags flag tenant = false) ∧
    (∀ (flags : List flagReply) (flag tenant : String) (f : flagReply),
        flags.find? (fun g => g.code == flag) = some f → f.enabled = true →
        f.tenants ≠ [] →
        evalFlags flags flag tenant =
          (match f.tenants.find? (fun t => t.code == tenant) with
           | some t => t.enabled
           | none => false)) := by
  refine ⟨?_, ?_, ?_, ?_, ?_⟩
  · intro c now out flag tenant hlocal hstale
    rw [IsEnabled, if_neg (by simp [hlocal]), hstale]
    simp
  · intro flags flag tenant h
    exact evalFlags_of_find_none flags flag tenant h
  · intro flags flag tenant f h hten
    rw [evalFlags_of_find_some flags flag tenant f h, evalOne, if_pos hten]
  · intro flags flag tenant f h hen
    rw [evalFlags_of_find_some flags flag tenant f h, evalOne]
    by_cases hten : f.tenants = [] <;> simp [hten, hen]
  · intro flags flag tenant f h hen hten
    rw [evalFlags_of_find_some flags flag tenant f h, evalOne, if_neg hten,
      if_neg (by simp [hen]), evalTenants_eq_find]

/-- Witness for C1 at the repository's own test snapshot. -/
theorem isEnabled_evaluation_algorithm_witness :
    IsEnabled { newClientState false with
                flags := testFlags
                stale := some 1000 } 500 FetchOutcome.netError "global-enabled" ""
      = ({ newClientState false with
           flags := testFlags
           stale := some 1000 },
          0, evalFlags testFlags "global-enabled" "") ∧
    evalFlags testFlags "not-found" "" = false ∧
    evalFlags testFlags "global-enabled" "any-tenant" = true ∧
    evalFlags testFlags "global-disabled-tenant-enabled" "foo-tenant" = false ∧
    evalFlags testFlags "tenant-enabled" "foo-tenant" = true := by
  refine ⟨?_, ?_, ?_, ?_, ?_⟩
  · exact isEnabled_evaluation_algorithm.1 _ 500 _ "global-enabled" ""
      (by decide) (by decide)
  · exact isEnabled_evaluation_algorithm.2.1 testFlags "not-found" "" (by decide)
  · rw [isEnabled_evaluation_algorithm.2.2.1 testFlags "global-enabled" "any-tenant"
      { code := "global-enabled", enabled := true, tenants := [] }
      (by decide) (by decide)]
  · exact isEnabled_evaluation_algorithm.2.2.2.1 testFlags
      "global-disabled-tenant-enabled" "foo-tenant"
      { code := "global-disabled-tenant-enabled", enabled := false,
        tenants := [{ code := "foo-tenant", enabled := true }] }
      (by decide) (by decide)
  · rw [isEnabled_evaluation_algorithm.2.2.2.2 testFlags "tenant-enabled"
      "foo-tenant"
      { code := "tenant-enabled", enabled := true,
        tenants := [{ code := "foo-tenant", enabled := true }] }
      (by decide) (by decide) (by decide)]
    decide

/-- Claim C10: when several flag definitions share the queried code, only
the first occurrence (in list order) determines the result; everything
after it is irrelevant. -/
theorem isEnabled_first_duplicate_wins (l1 : List flagReply) (f : flagReply)
    (l2 l2' : List flagReply) (flag tenant : String)
    (hbefore : ∀ g ∈ l1, g.code ≠ flag) (hf : f.code = flag) :
    evalFlags (l1 ++ f :: l2) flag tenant = evalFlags (l1 ++ f :: l2') flag tenant := by
  induction l1 with
  | nil =>
    have hne : ¬ f.code ≠ flag := by simp [hf]
    simp only [List.nil_append, evalFlags, if_neg hne]
  | cons g rest ih =>
    have hg : g.code ≠ flag := hbefore g (List.mem_cons_self g rest)
    simp only [List.cons_append, evalFlags, if_pos hg]
    exact ih fun x hx => hbefore x (List.mem_cons_of_mem g hx)

/-- Witness for C10: a duplicate of `dup-flag` with the opposite value after
the first occurrence does not change the answer. -/
theorem isEnabled_first_duplicate_wins_witness :
    evalFlags [{ code := "dup-flag", enabled := true, tenants := [] },
               { code := "dup-flag", enabled := false, tenants := [] }]
        "dup-flag" ""
      = evalFlags [{ code := "dup-flag", enabled := true, tenants := [] }]
          "dup-flag" "" :=
  isEnabled_first_duplicate_wins []
    { code := "dup-flag", enabled := true, tenants := [] }
    [{ code := "dup-flag", enabled := false, tenants := [] }] [] "dup-flag" ""
    (by simp) (by decide)

/-- Claim C2: when a fetch attempt actually runs (the rate floor does not
skip it) and fails — network error, non-200 status or decode error — the
cached flag list and the last-refresh instant are untouched, the staleness
deadline moves to now plus the error backoff (300000 ms = 5 minutes in
`newClient`), and `IsEnabled` still returns a plain boolean computed from
the pre-existing snapshot: the error is never surfaced. -/
theorem fetch_failure_preserves_flags (c : featuresClient) (now : Nat)
    (out : FetchOutcome) (flag tenant : String)
    (hfail : fetchFailed out = true) (hfloor : skipFetch c now = false) :
    (fetch c now out).1.flags = c.flags ∧
    (fetch c now out).1.lastRefresh = c.lastRefresh ∧
    (fetch c now out).1.stale = some (now + c.staleDurationError) ∧
    (c.localMode = false → isStale c now = true →
      IsEnabled c now out flag tenant =
        ((fetch c now out).1, 1, evalFlags c.flags flag tenant)) ∧
    (∀ b, (newClientState b).staleDurationError = 300000) := by
  have hsf : safeFetch c now out = (c, 1, true) := by
    rw [safeFetch.eq_def, if_neg (by simp [hfloor])]
    cases out with
    | netError => rfl
    | httpResponse status body =>
      simp only [fetchFailed] at hfail
      by_cases hs : status = 200
      · subst hs
        cases body with
        | none => rfl
        | some fetched => simp at hfail
      · simp [hs]
  have hfe : fetch c now out = ({ c with stale := some (now + c.staleDurationError) }, 1) := by
    rw [fetch, hsf]
    rfl
  refine ⟨by rw [hfe], by rw [hfe], by rw [hfe], ?_, fun _ => rfl⟩
  intro hlocal hstale
  rw [IsEnabled, if_neg (by simp [hlocal]), hstale]
  simp only [if_pos trivial, hfe]

/-- Witness for C2: a failing fetch at instant 5000 on a fresh client keeps
the empty snapshot and pushes the staleness deadline to 305000. -/
theorem fetch_failure_preserves_flags_witness :
    (fetch (newClientState false) 5000 (FetchOutcome.httpResponse 500 none)).1.flags = [] ∧
    (fetch (newClientState false) 5000
        (FetchOutcome.httpResponse 500 none)).1.stale = some 305000 ∧
    IsEnabled (newClientState false) 5000 (FetchOutcome.httpResponse 500 none)
        "global-enabled" "" =
      ((fetch (newClientState false) 5000 (FetchOutcome.httpResponse 500 none)).1,
        1, evalFlags [] "global-enabled" "") := by
  have h := fetch_failure_preserves_flags (newClientState false) 5000
    (FetchOutcome.httpResponse 500 none) "global-enabled" ""
    (by decide) (by decide)
  exact ⟨h.1, h.2.2.1, h.2.2.2.1 (by decide) (by decide)⟩

/-- Claim C4: a successful fetch replaces the snapshot, sets the staleness
deadline to now plus the freshness window (60000 ms = 1 minute in
`newClient`) and the last-refresh instant to now; and any `IsEnabled` call
before the staleness deadline finds `isStale` false, does not invoke the
fetch engine, and issues zero outbound requests. -/
theorem fresh_window_no_refetch (c : featuresClient) (now : Nat)
    (fl : List flagReply) (out : FetchOutcome) (flag tenant : String)
    (hskip : skipFetch c now = false) (hlocal : c.localMode = false) :
    ((fetch c now (FetchOutcome.httpResponse 200 (some fl))).1.stale
        = some (now + c.staleDuration) ∧
      (fetch c now (FetchOutcome.httpResponse 200 (some fl))).1.lastRefresh
        = some now ∧
      (fetch c now (FetchOutcome.httpResponse 200 (some fl))).1.flags = fl) ∧
    (∀ (c' : featuresClient) (t s : Nat), c'.localMode = false →
        c'.stale = some s → t < s →
        IsEnabled c' t out flag tenant = (c', 0, evalFlags c'.flags flag tenant)) ∧
    (∀ t, t < now + c.staleDuration →
        IsEnabled (fetch c now (FetchOutcome.httpResponse 200 (some fl))).1 t out
            flag tenant
          = ((fetch c now (FetchOutcome.httpResponse 200 (some fl))).1, 0,
              evalFlags fl flag tenant)) ∧
    (∀ b, (newClientState b).staleDuration = 60000) := by
  have hsf : safeFetch c now (FetchOutcome.httpResponse 200 (some fl)) =
      ({ c with
          flags := fl
          stale := some (now + c.staleDuration)
          lastRefresh := some now }, 1, false) := by
    rw [safeFetch, if_neg (by simp [hskip])]
    rfl
  have hfe : fetch c now (FetchOutcome.httpResponse 200 (some fl)) =
      ({ c with
          flags := fl
          stale := some (now + c.staleDuration)
          lastRefresh := some now }, 1) := by
    rw [fetch, hsf]
    rfl
  have hfresh : ∀ (c' : featuresClient) (t s : Nat), c'.localMode = false →
      c'.stale = some s → t < s →
      IsEnabled c' t out flag tenant = (c', 0, evalFlags c'.flags flag tenant) := by
    intro c' t s hl hs hts
    have hstale : isStale c' t = false := by
      rw [isStale, hs]
      simp only [decide_eq_false_iff_not]
      omega
    rw [IsEnabled, if_neg (by simp [hl]), hstale]
    simp
  refine ⟨⟨by rw [hfe], by rw [hfe], by rw [hfe]⟩, hfresh, ?_, fun _ => rfl⟩
  intro t ht
  have hl' : (fetch c now (FetchOutcome.httpResponse 200 (some fl))).1.localMode
      = false := by
    rw [hfe]
    exact hlocal
  have hs' : (fetch c now (FetchOutcome.httpResponse 200 (some fl))).1.stale
      = some (now + c.staleDuration) := by
    rw [hfe]
  rw [hfresh _ t (now + c.staleDuration) hl' hs' ht, hfe]

/-- Witness for C4: after a successful fetch of the test snapshot at instant
1000 on a fresh client, an evaluation at instant 40000 (inside the one
minute freshness window ending at 61000) issues zero requests. -/
theorem fresh_window_no_refetch_witness :
    (fetch (newClientState false) 1000
        (FetchOutcome.httpResponse 200 (some testFlags))).1.stale = some 61000 ∧
    (fetch (newClientState false) 1000
        (FetchOutcome.httpResponse 200 (some testFlags))).1.lastRefresh
      = some 1000 ∧
    IsEnabled (fetch (newClientState false) 1000
          (FetchOutcome.httpResponse 200 (some testFlags))).1 40000
        FetchOutcome.netError "global-enabled" ""
      = ((fetch (newClientState false) 1000
            (FetchOutcome.httpResponse 200 (some testFlags))).1, 0,
          evalFlags testFlags "global-enabled" "") := by
  have h := fresh_window_no_refetch (newClientState false) 1000 testFlags
    FetchOutcome.netError "global-enabled" "" (by decide) (by decide)
  exact ⟨h.1.1, h.1.2.1, h.2.2.1 40000 (by decide)⟩

/-- Counterexample to claim C5 as stated: a failed fetch is an attempted
fetch, yet it does not arm the rate floor.  On a fresh client a fetch at
instant 1000 fails; a second fetch at instant 6000 — only 5 seconds after
that attempt completed, well under the 10 second minimum interval — is not
skipped: it issues another outbound request and changes the client state
(the staleness deadline moves from 301000 to 306000). -/
theorem rate_floor_attempted_counterexample :
    6000 - 1000 < (newClientState false).maxFetchInterval ∧
    ¬ ((fetch (fetch (newClientState false) 1000 FetchOutcome.netError).1 6000
          FetchOutcome.netError).2 = 0 ∧
        (fetch (fetch (newClientState false) 1000 FetchOutcome.netError).1 6000
            FetchOutcome.netError).1
          = (fetch (newClientState false) 1000 FetchOutcome.netError).1) := by
  decide

/-- Claim C5 (amended): only a *successful* fetch arms the rate floor.  For
every fetch triggered while the previous successful fetch completed less
than `maxFetchInterval` (10000 ms = 10 seconds in `newClient`) ago, the
fetch is skipped silently and treated as success: no outbound request is
issued and the client state is unchanged. -/
theorem rate_floor_skip_after_success (c : featuresClient) (now : Nat)
    (out : FetchOutcome) (lr : Nat)
    (h1 : c.lastRefresh = some lr) (h2 : now - lr < c.maxFetchInterval) :
    safeFetch c now out = (c, 0, false) ∧ fetch c now out = (c, 0) ∧
    (∀ b, (newClientState b).maxFetchInterval = 10000) := by
  have hskip : skipFetch c now = true := by
    rw [skipFetch, h1]
    simpa using h2
  have hsf : safeFetch c now out = (c, 0, false) := by
    rw [safeFetch.eq_def, if_pos (by simp [hskip])]
  refine ⟨hsf, ?_, fun _ => rfl⟩
  rw [fetch, hsf]
  rfl

/-- Witness for amended C5: after a successful fetch at instant 1000, a
fetch at instant 5000 (4 seconds later) is a silent no-op even though the
transport would fail. -/
theorem rate_floor_skip_after_success_witness :
    safeFetch (fetch (newClientState false) 1000
        (FetchOutcome.httpResponse 200 (some testFlags))).1 5000
        FetchOutcome.netError
      = ((fetch (newClientState false) 1000
            (FetchOutcome.httpResponse 200 (some testFlags))).1, 0, false) ∧
    fetch (fetch (newClientState false) 1000
        (FetchOutcome.httpResponse 200 (some testFlags))).1 5000
        FetchOutcome.netError
      = ((fetch (newClientState false) 1000
            (FetchOutcome.httpResponse 200 (some testFlags))).1, 0) := by
  have h := rate_floor_skip_after_success
    (fetch (newClientState false) 1000
        (FetchOutcome.httpResponse 200 (some testFlags))).1 5000
    FetchOutcome.netError 1000 (by decide) (by decide)
  exact ⟨h.1, h.2.1⟩

/-- Claim C6: the recomputed refresh interval is 15 seconds when the time
since the last access is under 5 minutes, 1 minute between 5 and 30
minutes, and 5 minutes from 30 minutes on; and `adjustInterval` resets the
ticker exactly when the recomputed interval differs from the previous
value. -/
theorem adjust_interval_table :
    (∀ d : Nat, d < 300000 → adjustIntervalValue d = 15000) ∧
    (∀ d : Nat, 300000 ≤ d → d < 1800000 → adjustIntervalValue d = 60000) ∧
    (∀ d : Nat, 1800000 ≤ d → adjustIntervalValue d = 300000) ∧
    (∀ (st : schedState) (now : Nat),
        ((adjustInterval st now).2 = true ↔
          adjustIntervalValue (now - st.lastAccess) ≠ st.refreshInterval) ∧
        (adjustInterval st now).1.refreshInterval
          = adjustIntervalValue (now - st.lastAccess)) := by
  refine ⟨?_, ?_, ?_, ?_⟩
  · intro d hd
    rw [adjustIntervalValue, if_pos hd]
  · intro d hd1 hd2
    rw [adjustIntervalValue, if_neg (by omega), if_pos hd2]
  · intro d hd
    rw [adjustIntervalValue, if_neg (by omega), if_neg (by omega)]
  · intro st now
    constructor
    · simp [adjustInterval]
    · rfl

/-- Witness for C6 at the three interval bands and one concrete reset
check. -/
theorem adjust_interval_table_witness :
    adjustIntervalValue 100 = 15000 ∧
    adjustIntervalValue 300000 = 60000 ∧
    adjustIntervalValue 1800000 = 300000 ∧
    ((adjustInterval { lastAccess := 0, refreshInterval := 300000 } 100).2 = true ↔
      adjustIntervalValue 100 ≠ 300000) :=
  ⟨adjust_interval_table.1 100 (by decide),
    adjust_interval_table.2.1 300000 (by decide) (by decide),
    adjust_interval_table.2.2.1 1800000 (by decide),
    (adjust_interval_table.2.2.2 { lastAccess := 0, refreshInterval := 300000 }
        100).1⟩

/-- Claim C9: calling `Flag` before the client has been configured fails
loudly with the panic `call features.Configure() before using
features.Flag()` rather than silently answering `false` (or any other
boolean). -/
theorem flag_unconfigured_panics :
    (∀ (now : Nat) (out : FetchOutcome) (code tenant : String),
        Flag none now out code tenant = Except.error configureMessage) ∧
    (∀ (now : Nat) (out : FetchOutcome) (code tenant : String) (b : Bool),
        Flag none now out code tenant ≠ Except.ok b) := by
  constructor
  · intro now out code tenant
    rfl
  · intro now out code tenant b h
    simp [Flag] at h

/-! ## Helper lemmas about the stats aggregator -/

theorem lookupBucket_updateBuckets (bm : List (Nat × bucketStats)) (key : Nat)
    (enabled : Bool) :
    lookupBucket (updateBuckets bm key enabled) key =
      some { enabledHits := ((lookupBucket bm key).getD
                { enabledHits := 0, totalHits := 0 }).enabledHits
              + (if enabled then 1 else 0)
             totalHits := ((lookupBucket bm key).getD
                { enabledHits := 0, totalHits := 0 }).totalHits + 1 } := by
  induction bm with
  | nil => simp [updateBuckets, lookupBucket]
  | cons p rest ih =>
    obtain ⟨k, b⟩ := p
    by_cases hk : k = key
    · subst hk
      simp [updateBuckets, lookupBucket]
    · simp [updateBuckets, lookupBucket, hk, ih]

theorem lookupStatsBucket_consumeEvent (stats : StatsMap) (now : Nat)
    (e : accessEvent) :
    lookupStatsBucket (consumeEvent stats now e) e.flag (minuteKey now) =
      some { enabledHits := (getBucket stats e.flag (minuteKey now)).enabledHits
              + (if e.enabled then 1 else 0)
             totalHits := (getBucket stats e.flag (minuteKey now)).totalHits + 1 } := by
  induction stats with
  | nil =>
    simp [consumeEvent, lookupStatsBucket, lookupFlag, getBucket,
      lookupBucket_updateBuckets, lookupBucket]
  | cons p rest ih =>
    obtain ⟨f, fs⟩ := p
    by_cases hf : f = e.flag
    · subst hf
      simp [consumeEvent, lookupStatsBucket, lookupFlag, getBucket,
        lookupBucket_updateBuckets]
    · simp only [consumeEvent, if_neg hf, lookupStatsBucket, lookupFlag,
        getBucket] at ih ⊢
      simpa [hf] using ih

theorem lookupBucket_cleanBuckets (bm : List (Nat × bucketStats))
    (cutoff k : Nat) :
    lookupBucket (cleanBuckets bm cutoff) k =
      if k < cutoff then none else lookupBucket bm k := by
  induction bm with
  | nil => rw [cleanBuckets, lookupBucket, ite_self]
  | cons p rest ih =>
    obtain ⟨k', b⟩ := p
    by_cases hc : k' < cutoff
    · rw [cleanBuckets, if_pos hc, ih]
      by_cases hk : k' = k
      · subst hk
        rw [if_pos hc, if_pos hc]
      · rw [lookupBucket, if_neg hk]
    · rw [cleanBuckets, if_neg hc]
      by_cases hk : k' = k
      · subst hk
        rw [lookupBucket, if_pos rfl, if_neg hc, lookupBucket, if_pos rfl]
      · rw [lookupBucket, if_neg hk, ih, lookupBucket, if_neg hk]

theorem lookupFlag_eq_none_of_not_mem (stats : StatsMap) (flag : String)
    (h : flag ∉ stats.map Prod.fst) : lookupFlag stats flag = none := by
  induction stats with
  | nil => rfl
  | cons p rest ih =>
    obtain ⟨f, fs⟩ := p
    simp only [List.map_cons, List.mem_cons, not_or] at h
    rw [lookupFlag, if_neg (Ne.symm h.1)]
    exact ih h.2

theorem pruneOld_keys_not_mem (stats : StatsMap) (cutoff : Nat) (flag : String)
    (h : flag ∉ stats.map Prod.fst) :
    flag ∉ (pruneOld stats cutoff).map Prod.fst := by
  induction stats with
  | nil => simp [pruneOld]
  | cons p rest ih =>
    obtain ⟨f, fs⟩ := p
    simp only [List.map_cons, List.mem_cons, not_or] at h
    rw [pruneOld]
    by_cases hempty : cleanBuckets fs.buckets cutoff = []
    · rw [if_pos hempty]
      exact ih h.2
    · rw [if_neg hempty]
      simp only [List.map_cons, List.mem_cons, not_or]
      exact ⟨h.1, ih h.2⟩

theorem lookupFlag_pruneOld (stats : StatsMap) (cutoff : Nat) (flag : String)
    (hnodup : (stats.map Prod.fst).Nodup) :
    lookupFlag (pruneOld stats cutoff) flag =
      match lookupFlag stats flag with
      | none => none
      | some fs =>
        if cleanBuckets fs.buckets cutoff = [] then none
        else some { buckets := cleanBuckets fs.buckets cutoff } := by
  induction stats with
  | nil => rfl
  | cons p rest ih =>
    obtain ⟨f, fs⟩ := p
    rw [List.map_cons, List.nodup_cons] at hnodup
    rw [pruneOld]
    by_cases hempty : cleanBuckets fs.buckets cutoff = []
    · rw [if_pos hempty]
      by_cases hf : f = flag
      · subst hf
        rw [lookupFlag_eq_none_of_not_mem _ _
            (pruneOld_keys_not_mem rest cutoff f hnodup.1)]
        rw [lookupFlag, if_pos rfl]
        exact (if_pos hempty).symm
      · rw [ih hnodup.2, lookupFlag, if_neg hf]
    · rw [if_neg hempty]
      by_cases hf : f = flag
      · subst hf
        rw [lookupFlag, if_pos rfl, lookupFlag, if_pos rfl]
        exact (if_neg hempty).symm
      · rw [lookupFlag, if_neg hf, ih hnodup.2, lookupFlag, if_neg hf]

theorem lookupStatsBucket_of_lookupFlag_none (stats : StatsMap) (flag : String)
    (k : Nat) (h : lookupFlag stats flag = none) :
    lookupStatsBucket stats flag k = none := by
  rw [lookupStatsBucket, h]

theorem lookupStatsBucket_of_lookupFlag_some (stats : StatsMap) (flag : String)
    (k : Nat) (fs : flagStats) (h : lookupFlag stats flag = some fs) :
    lookupStatsBucket stats flag k = lookupBucket fs.buckets k := by
  rw [lookupStatsBucket, h]

theorem lookupStatsBucket_pruneOld (stats : StatsMap) (cutoff : Nat)
    (flag : String) (k : Nat) (hnodup : (stats.map Prod.fst).Nodup) :
    lookupStatsBucket (pruneOld stats cutoff) flag k =
      if k < cutoff then none else lookupStatsBucket stats flag k := by
  have hplf := lookupFlag_pruneOld stats cutoff flag hnodup
  cases hlf : lookupFlag stats flag with
  | none =>
    rw [hlf] at hplf
    have hplf2 : lookupFlag (pruneOld stats cutoff) flag = none := hplf
    rw [lookupStatsBucket_of_lookupFlag_none _ _ k hplf2,
      lookupStatsBucket_of_lookupFlag_none _ _ k hlf, ite_self]
  | some fs =>
    rw [hlf] at hplf
    have hplf2 : lookupFlag (pruneOld stats cutoff) flag =
        if cleanBuckets fs.buckets cutoff = [] then none
        else some { buckets := cleanBuckets fs.buckets cutoff } := hplf
    rw [lookupStatsBucket_of_lookupFlag_some _ _ k fs hlf]
    by_cases hempty : cleanBuckets fs.buckets cutoff = []
    · rw [if_pos hempty] at hplf2
      rw [lookupStatsBucket_of_lookupFlag_none _ _ k hplf2]
      have hcl := lookupBucket_cleanBuckets fs.buckets cutoff k
      rw [hempty] at hcl
      exact hcl
    · rw [if_neg hempty] at hplf2
      rw [lookupStatsBucket_of_lookupFlag_some _ _ k _ hplf2]
      exact lookupBucket_cleanBuckets fs.buckets cutoff k

theorem pruneOld_buckets_ne_nil (stats : StatsMap) (cutoff : Nat) :
    ∀ p ∈ pruneOld stats cutoff, p.2.buckets ≠ [] := by
  induction stats with
  | nil =>
    intro p hp
    simp [pruneOld] at hp
  | cons q rest ih =>
    obtain ⟨f, fs⟩ := q
    intro p hp
    rw [pruneOld] at hp
    by_cases hempty : cleanBuckets fs.buckets cutoff = []
    · rw [if_pos hempty] at hp
      exact ih p hp
    · rw [if_neg hempty] at hp
      rcases List.mem_cons.mp hp with h | h
      · subst h
        simpa using hempty
      · exact ih p h

/-- Claim C7: consuming an access event increments the `(flag, minute)`
bucket's total hits by exactly one, and its enabled hits by exactly one
precisely when the evaluation resolved to `true`; consequently the spec's
scenario — `tenant-enabled` evaluated twice for `foo-tenant` (true) and
three times for `bar-tenant` (false) inside one minute — flushes as exactly
one bucket with 5 total hits and 2 enabled hits. -/
theorem stats_bucket_increment :
    (∀ (stats : StatsMap) (now : Nat) (e : accessEvent),
        (getBucket (consumeEvent stats now e) e.flag (minuteKey now)).totalHits
          = (getBucket stats e.flag (minuteKey now)).totalHits + 1 ∧
        (getBucket (consumeEvent stats now e) e.flag (minuteKey now)).enabledHits
          = (getBucket stats e.flag (minuteKey now)).enabledHits
              + (if e.enabled then 1 else 0)) ∧
    statsEntries scenarioStats
      = [{ bucket := 946684800000, flag := "tenant-enabled",
           enabledHits := 2, totalHits := 5 }] := by
  constructor
  · intro stats now e
    have h := lookupStatsBucket_consumeEvent stats now e
    rw [getBucket, h]
    exact ⟨rfl, rfl⟩
  · decide

/-- Claim C8: with stats accumulated and the client not in local mode, an
upload accepted with HTTP 200 or 204 clears the whole mapping; a failed
upload keeps every bucket except those whose minute lies before the 20 hour
cutoff, which are deleted, and drops flags left with no bucket — so after a
failure the mapping is empty only when every bucket was older than the
cutoff. -/
theorem stats_upload_clear_or_prune (stats : StatsMap) (now : Nat)
    (out : UploadOutcome) (hnodup : (stats.map Prod.fst).Nodup)
    (hne : stats ≠ []) :
    (uploadAccepted out = true → statsTick false stats now out = []) ∧
    (uploadAccepted out = false →
      (∀ (flag : String) (k : Nat),
          lookupStatsBucket (statsTick false stats now out) flag k =
            if k < now - 72000000 then none
            else lookupStatsBucket stats flag k) ∧
      (∀ p ∈ statsTick false stats now out, p.2.buckets ≠ []) ∧
      ((∃ flag k, ¬ k < now - 72000000 ∧
          (lookupStatsBucket stats flag k).isSome = true) →
        statsTick false stats now out ≠ [])) := by
  constructor
  · intro hacc
    have hsend : sendStats false stats out = ([], false) := by
      rw [sendStats, if_neg (by simp), if_neg hne, if_pos hacc]
    rw [statsTick, hsend]
    rfl
  · intro hfail
    have hsend : sendStats false stats out = (stats, true) := by
      rw [sendStats, if_neg (by simp), if_neg hne, if_neg (by simp [hfail])]
    have htick : statsTick false stats now out
        = pruneOld stats (now - 72000000) := by
      rw [statsTick, hsend]
      rfl
    refine ⟨?_, ?_, ?_⟩
    · intro flag k
      rw [htick]
      exact lookupStatsBucket_pruneOld stats (now - 72000000) flag k hnodup
    · rw [htick]
      exact pruneOld_buckets_ne_nil stats (now - 72000000)
    · intro hex heq
      obtain ⟨flag, k, hk, hsome⟩ := hex
      have h1 := lookupStatsBucket_pruneOld stats (now - 72000000) flag k hnodup
      rw [htick] at heq
      rw [heq, if_neg hk] at h1
      rw [← h1] at hsome
      simp [lookupStatsBucket, lookupFlag] at hsome

/-- Witness for C8 on `sampleStats` at instant 946684860000 (cutoff
946612860000): an accepted upload clears everything; after a network error
the minute-0 bucket is pruned, the recent bucket survives, and the mapping
stays nonempty. -/
theorem stats_upload_clear_or_prune_witness :
    statsTick false sampleStats 946684860000 (UploadOutcome.status 204) = [] ∧
    lookupStatsBucket
        (statsTick false sampleStats 946684860000 UploadOutcome.netError)
        "f" 0 = none ∧
    lookupStatsBucket
        (statsTick false sampleStats 946684860000 UploadOutcome.netError)
        "f" 946684800000 = some { enabledHits := 1, totalHits := 3 } ∧
    statsTick false sampleStats 946684860000 UploadOutcome.netError ≠ [] := by
  refine ⟨?_, ?_, ?_, ?_⟩
  · exact (stats_upload_clear_or_prune sampleStats 946684860000
      (UploadOutcome.status 204) (by decide) (by decide)).1 (by decide)
  · have h := (stats_upload_clear_or_prune sampleStats 946684860000
      UploadOutcome.netError (by decide) (by decide)).2 (by decide)
    have h2 := h.1 "f" 0
    rw [if_pos (by decide)] at h2
    exact h2
  · have h := (stats_upload_clear_or_prune sampleStats 946684860000
      UploadOutcome.netError (by decide) (by decide)).2 (by decide)
    have h2 := h.1 "f" 946684800000
    rw [if_neg (by decide)] at h2
    rw [h2]
    decide
  · have h := (stats_upload_clear_or_prune sampleStats 946684860000
      UploadOutcome.netError (by decide) (by decide)).2 (by decide)
    exact h.2.2 ⟨"f", 946684800000, by decide, by decide⟩

end Features
